import Mathlib

/-!
Verification development for the VM web-shell session server (`main.go`).

The Go program manages browser terminal sessions: each session owns a kernel
bridge interface, one tap interface per machine, and two QEMU processes
attached to pseudoterminals.  External effects (the `ip` tool, `pty.Start`,
`crypto/rand`, the clock) are modelled by oracles; every function below is a
shallow embedding of the correspondingly named Go function, instrumented to
also return the trace of external actions it performed.
-/

set_option maxRecDepth 8192

namespace VMWS

/-- Result of running one external command (`exec.Command` + `CombinedOutput`):
either exit success, or a failure carrying the Go error text (`%v`) and the
combined output of the process. -/
inductive CmdResult where
  | ok : CmdResult
  | err (errv : String) (output : String) : CmdResult
deriving Repr, DecidableEq

/-- Oracle fixing the outcome of every external command invocation. -/
def CmdOracle := List String → CmdResult

/-- `strings.Contains` on the underlying character lists. -/
def containsStr (hay pat : String) : Bool :=
  decide (pat.toList <:+: hay.toList)

/-- Embedding of `runCommand` (main.go:367): runs the command and wraps a
failure as `command '<args>' failed: <err>, output: <output>`. -/
def runCommand (o : CmdOracle) (args : List String) : Except String Unit :=
  match o args with
  | .ok => .ok ()
  | .err ev out =>
      .error ("command '" ++ String.intercalate " " args ++ "' failed: "
        ++ ev ++ ", output: " ++ out)

/-- The output shapes `interfaceExists` (main.go:356-358) recognises as
"the interface is absent". -/
def absentShapes (out : String) : Bool :=
  containsStr out "does not exist" || containsStr out "Cannot find device"
    || containsStr out "No such device"

/-- Embedding of `interfaceExists` (main.go:352): `ip link show <name>`;
success means the interface exists, a failure whose output looks like
"not found" means it does not, any other failure is a reportable error. -/
def interfaceExists (o : CmdOracle) (name : String) : Except String Bool :=
  match o ["ip", "link", "show", name] with
  | .ok => .ok true
  | .err ev out =>
      if absentShapes out then .ok false
      else
        .error ("error executing 'ip link show " ++ name ++ "': " ++ ev
          ++ ", output: " ++ out)

/-- Embedding of the `Session` struct (main.go:21): handles are abstract
numeric identifiers, `lastActive` an abstract clock value. -/
structure Session where
  hash : String
  bridgeName : String
  tapNames : List (String × String)
  ptyFiles : List (String × Nat)
  cmds : List (String × Nat)
  lastActive : Nat
deriving Repr, DecidableEq

/-- What happened to one cleanup command in `cleanupNetwork`'s loop:
it succeeded, it failed but the device was already gone (the `continue`
branch), or it failed unexpectedly and was merely logged. -/
inductive CleanupOutcome where
  | success : CleanupOutcome
  | alreadyGone : CleanupOutcome
  | loggedError : CleanupOutcome
deriving Repr, DecidableEq

/-- The command list built by `cleanupNetwork` (main.go:327-335): bridge
down and delete first, then, per tap, down and delete. -/
def cleanupCommands (s : Session) : List (List String) :=
  [["ip", "link", "set", s.bridgeName, "down"],
   ["ip", "link", "delete", s.bridgeName, "type", "bridge"]]
  ++ (s.tapNames.map (fun p =>
        [["ip", "link", "set", p.2, "down"], ["ip", "link", "delete", p.2]])).flatten

/-- The per-command loop of `cleanupNetwork` (main.go:337-346): every command
is executed; a failure containing "Cannot find device" or "No such device"
is skipped (`continue`), any other failure is logged; the loop never stops
early. -/
def cleanupLoop (o : CmdOracle) : List (List String) → List (List String × CleanupOutcome)
  | [] => []
  | cmdArgs :: rest =>
      (match runCommand o cmdArgs with
       | .ok _ => (cmdArgs, CleanupOutcome.success)
       | .error e =>
          if containsStr e "Cannot find device" || containsStr e "No such device" then
            (cmdArgs, CleanupOutcome.alreadyGone)
          else
            (cmdArgs, CleanupOutcome.loggedError))
      :: cleanupLoop o rest

/-- Embedding of `cleanupNetwork` (main.go:326-349): runs the whole command
list and then returns `nil`, unconditionally. -/
def cleanupNetwork (o : CmdOracle) (s : Session) :
    Except String Unit × List (List String × CleanupOutcome) :=
  (.ok (), cleanupLoop o (cleanupCommands s))

/-- An action taken by `setupNetwork`: either the existence query
(`ip link show`) or an executed provisioning command. -/
inductive NetAction where
  | query (name : String) : NetAction
  | run (cmd : List String) : NetAction
deriving Repr, DecidableEq

/-- The tap-device loop of `setupNetwork` (main.go:304-319): per tap, create
the tap, attach it to the bridge as master, bring it up; the first failure
aborts with the step's error message.  Returns the outcome together with the
commands actually executed, in order. -/
def tapSetup (o : CmdOracle) (bridge : String) :
    List (String × String) → Except String Unit × List (List String)
  | [] => (.ok (), [])
  | (_, tap) :: rest =>
      match runCommand o ["ip", "tuntap", "add", "mode", "tap", tap] with
      | .error e =>
          (.error ("failed to create TAP device " ++ tap ++ ": " ++ e),
           [["ip", "tuntap", "add", "mode", "tap", tap]])
      | .ok _ =>
        match runCommand o ["ip", "link", "set", tap, "master", bridge] with
        | .error e =>
            (.error ("failed to attach TAP device " ++ tap ++ " to bridge "
               ++ bridge ++ ": " ++ e),
             [["ip", "tuntap", "add", "mode", "tap", tap],
              ["ip", "link", "set", tap, "master", bridge]])
        | .ok _ =>
          match runCommand o ["ip", "link", "set", tap, "up"] with
          | .error e =>
              (.error ("failed to bring up TAP device " ++ tap ++ ": " ++ e),
               [["ip", "tuntap", "add", "mode", "tap", tap],
                ["ip", "link", "set", tap, "master", bridge],
                ["ip", "link", "set", tap, "up"]])
          | .ok _ =>
              let r := tapSetup o bridge rest
              (r.1, ["ip", "tuntap", "add", "mode", "tap", tap]
                 :: ["ip", "link", "set", tap, "master", bridge]
                 :: ["ip", "link", "set", tap, "up"] :: r.2)

/-- The part of `setupNetwork` after the stale-bridge check (main.go:294-322):
create the bridge, bring it up, then run the tap loop.  First failure aborts
with that step's error message. -/
def setupRest (o : CmdOracle) (s : Session) : Except String Unit × List (List String) :=
  match runCommand o ["ip", "link", "add", s.bridgeName, "type", "bridge"] with
  | .error e =>
      (.error ("failed to create bridge " ++ s.bridgeName ++ ": " ++ e),
       [["ip", "link", "add", s.bridgeName, "type", "bridge"]])
  | .ok _ =>
    match runCommand o ["ip", "link", "set", s.bridgeName, "up"] with
    | .error e =>
        (.error ("failed to bring up bridge " ++ s.bridgeName ++ ": " ++ e),
         [["ip", "link", "add", s.bridgeName, "type", "bridge"],
          ["ip", "link", "set", s.bridgeName, "up"]])
    | .ok _ =>
        let r := tapSetup o s.bridgeName s.tapNames
        (r.1, ["ip", "link", "add", s.bridgeName, "type", "bridge"]
           :: ["ip", "link", "set", s.bridgeName, "up"] :: r.2)

/-- Embedding of `setupNetwork` (main.go:284-323): check whether the bridge
name is already taken; if the check itself fails, abort; if the bridge
exists, delete it (failure fatal); then create bridge, bring it up, and set
up each tap.  The trace records the query and every executed command. -/
def setupNetwork (o : CmdOracle) (s : Session) : Except String Unit × List NetAction :=
  match interfaceExists o s.bridgeName with
  | .error e =>
      (.error ("error checking existence of bridge " ++ s.bridgeName ++ ": " ++ e),
       [NetAction.query s.bridgeName])
  | .ok true =>
    match runCommand o ["ip", "link", "delete", s.bridgeName, "type", "bridge"] with
    | .error e =>
        (.error ("failed to delete bridge " ++ s.bridgeName ++ ": " ++ e),
         [NetAction.query s.bridgeName,
          NetAction.run ["ip", "link", "delete", s.bridgeName, "type", "bridge"]])
    | .ok _ =>
        let r := setupRest o s
        (r.1, NetAction.query s.bridgeName
           :: NetAction.run ["ip", "link", "delete", s.bridgeName, "type", "bridge"]
           :: r.2.map NetAction.run)
  | .ok false =>
      let r := setupRest o s
      (r.1, NetAction.query s.bridgeName :: r.2.map NetAction.run)

/-- The alphabet used by Go's `encoding/hex` (lowercase). -/
def hexDigits : List Char := "0123456789abcdef".toList

/-- One hex digit; the index is reduced mod 16 (callers only pass values
below 16). -/
def hexDigit (n : Nat) : Char := hexDigits.getD (n % 16) '0'

/-- `hex.EncodeToString`: two lowercase hex digits per byte, high nibble
first. -/
def hexEncode (bs : List Nat) : String :=
  ⟨(bs.map (fun b => [hexDigit (b / 16), hexDigit b])).flatten⟩

/-- Oracles fixing all external nondeterminism of one `createSession` call:
whether `crypto/rand` succeeds and which bytes it yields, the outcome of
every `ip` command, whether `pty.Start` succeeds per machine id, the handle
values it returns, and the current clock reading. -/
structure Oracles where
  randOk : Bool
  randByte : Nat → Nat
  cmd : CmdOracle
  start : String → Bool
  ptyHandle : String → Nat
  procHandle : String → Nat
  now : Nat

/-- Embedding of `generateShortHash` (main.go:272-281): clamp the requested
length to 12, read `length/2` random bytes, hex-encode them. -/
def generateShortHash (o : Oracles) (length : Nat) : Except String String :=
  let length := if length > 12 then 12 else length
  if o.randOk then
    .ok (hexEncode ((List.range (length / 2)).map (fun i => o.randByte i % 256)))
  else
    .error "rand read failed"

/-- Embedding of `startMachine` (main.go:377-403): the tap device name is
consumed by the QEMU command line (opaque here); on `pty.Start` success the
session gains a pty handle and a process handle keyed by the machine id; on
failure nothing is stored. -/
def startMachine (o : Oracles) (s : Session) (machineID : String) (_tapDevice : String) :
    Except String Session :=
  if o.start machineID then
    .ok { s with
          ptyFiles := s.ptyFiles ++ [(machineID, o.ptyHandle machineID)],
          cmds := s.cmds ++ [(machineID, o.procHandle machineID)] }
  else
    .error ("error starting QEMU machine " ++ machineID ++ ": pty start failed")

/-- The global `sessions` map (main.go:31), as an association list whose keys
are unique. -/
abbrev Registry := List (String × Session)

/-- `sessions[hash] = session`: Go map insertion (replaces any entry with the
same key). -/
def registryInsert (reg : Registry) (key : String) (s : Session) : Registry :=
  reg.filter (fun p => p.1 ≠ key) ++ [(key, s)]

/-- `sessions[sessionID]` lookup. -/
def registryLookup (reg : Registry) (key : String) : Option Session :=
  (reg.find? (fun p => p.1 = key)).map Prod.snd

/-- `delete(sessions, sessionID)`. -/
def registryErase (reg : Registry) (key : String) : Registry :=
  reg.filter (fun p => p.1 ≠ key)

/-- In-place update of one session's `lastActive` field (sessions are stored
behind pointers in Go; the registry sees the new timestamp). -/
def registryTouch (reg : Registry) (key : String) (now : Nat) : Registry :=
  reg.map (fun p => if p.1 = key then (p.1, { p.2 with lastActive := now }) else p)

/-- Trace of the externally visible provisioning effects of one
`createSession` call. -/
structure CreateTrace where
  setupActions : List NetAction
  started : List String
  killed : List String
  cleanupRan : Bool
  cleanupCmds : List (List String × CleanupOutcome)
  guardTripped : Bool
deriving Repr, DecidableEq

def emptyTrace : CreateTrace :=
  { setupActions := [], started := [], killed := [], cleanupRan := false,
    cleanupCmds := [], guardTripped := false }

/-- The session value `createSession` builds (main.go:192-199) before any
provisioning, for a given hash. -/
def freshSession (o : Oracles) (hash : String) : Session :=
  { hash := hash,
    bridgeName := "br-" ++ hash,
    tapNames := [("1", "tap1-" ++ hash), ("2", "tap2-" ++ hash)],
    ptyFiles := [], cmds := [],
    lastActive := o.now }

/-- Embedding of `createSession` (main.go:178-221): generate a 6-character
hash, derive the interface names, check their length, set up the network,
start machine 1 then machine 2 (calling `cleanupNetwork` — and nothing
else — when a machine fails to start), and only on full success insert the
session into the registry. -/
def createSession (o : Oracles) (reg : Registry) :
    Except String Session × Registry × CreateTrace :=
  match generateShortHash o 6 with
  | .error e => (.error ("failed to generate hash: " ++ e), reg, emptyTrace)
  | .ok hash =>
    let bridgeName := "br-" ++ hash
    let tap1Name := "tap1-" ++ hash
    let tap2Name := "tap2-" ++ hash
    if bridgeName.length > 15 || tap1Name.length > 15 || tap2Name.length > 15 then
      (.error ("interface name too long: " ++ bridgeName ++ ", " ++ tap1Name
         ++ ", " ++ tap2Name),
       reg, { emptyTrace with guardTripped := true })
    else
      let session := freshSession o hash
      match setupNetwork o.cmd session with
      | (.error e, acts) =>
          (.error ("failed to set up network: " ++ e), reg,
           { emptyTrace with setupActions := acts })
      | (.ok _, acts) =>
        match startMachine o session "1" tap1Name with
        | .error e =>
            let c := cleanupNetwork o.cmd session
            (.error ("failed to start machine 1: " ++ e), reg,
             { setupActions := acts, started := [], killed := [],
               cleanupRan := true, cleanupCmds := c.2, guardTripped := false })
        | .ok session1 =>
          match startMachine o session1 "2" tap2Name with
          | .error e =>
              let c := cleanupNetwork o.cmd session1
              (.error ("failed to start machine 2: " ++ e), reg,
               { setupActions := acts, started := ["1"], killed := [],
                 cleanupRan := true, cleanupCmds := c.2, guardTripped := false })
          | .ok session2 =>
              (.ok session2, registryInsert reg hash session2,
               { setupActions := acts, started := ["1", "2"], killed := [],
                 cleanupRan := false, cleanupCmds := [], guardTripped := false })

/-- HTTP status outcomes of the handlers, as far as the claims need them. -/
inductive HStatus where
  | ok : HStatus
  | badRequest : HStatus
  | notFound : HStatus
deriving Repr, DecidableEq

/-- Embedding of `closeSessionHandler` (main.go:77-97): missing id is a bad
request; unknown id is "not found" with no teardown; otherwise the session is
removed from the registry and handed to `cleanupSession` (third component). -/
def closeSessionHandler (reg : Registry) (sessionID : String) :
    HStatus × Registry × Option Session :=
  if sessionID = "" then (.badRequest, reg, none)
  else
    match registryLookup reg sessionID with
    | none => (.notFound, reg, none)
    | some session => (.ok, registryErase reg sessionID, some session)

/-- `sessionTimeout` (main.go:36), in abstract clock units. -/
def sessionTimeout : Nat := 10 * 60

/-- One tick of `sessionCleaner` (main.go:258-267): every session with
`now - lastActive > sessionTimeout` is deleted from the registry and its
teardown scheduled (second component); everything else stays. -/
def sessionCleanerTick (now : Nat) (reg : Registry) :
    Registry × List (String × Session) :=
  (reg.filter (fun p => ¬ (now - p.2.lastActive > sessionTimeout)),
   reg.filter (fun p => now - p.2.lastActive > sessionTimeout))

/-- One read from the WebSocket (`wsConn.ReadMessage`): either a message of
some gorilla type with a payload, or a read error. -/
inductive WsRead where
  | msg (mtype : Nat) (bytes : String) : WsRead
  | fail : WsRead
deriving Repr, DecidableEq

/-- gorilla/websocket `TextMessage`. -/
def TextMessage : Nat := 1
/-- gorilla/websocket `BinaryMessage`. -/
def BinaryMessage : Nat := 2

/-- One iteration's worth of external facts for the `wsHandler` read loop:
what `ReadMessage` returned, what `time.Now()` reads at the touch point, and
whether the write to the machine pty succeeds. -/
structure WsEvent where
  read : WsRead
  now : Nat
  ptyWriteOk : Bool
deriving Repr, DecidableEq

/-- Embedding of the `wsHandler` read loop (main.go:158-174), tracking the
session's `lastActive` value: a read error breaks the loop; a text or binary
message is written to the pty, a failed write breaks the loop *before* the
touch; otherwise `lastActive` is set to the current time and the loop
continues. -/
def wsReadLoop (lastActive : Nat) : List WsEvent → Nat
  | [] => lastActive
  | e :: rest =>
    match e.read with
    | .fail => lastActive
    | .msg mtype _ =>
      if mtype = BinaryMessage ∨ mtype = TextMessage then
        if e.ptyWriteOk then wsReadLoop e.now rest
        else lastActive
      else wsReadLoop e.now rest

/-- The registry-facing part of `wsHandler` (main.go:100-123): validate the
session id and machine id, and on a hit refresh the session's `lastActive`
before upgrading. -/
def wsAttach (reg : Registry) (sessionID machineID : String) (now : Nat) :
    HStatus × Registry :=
  if sessionID = "" then (.badRequest, reg)
  else if machineID ≠ "1" ∧ machineID ≠ "2" then (.badRequest, reg)
  else
    match registryLookup reg sessionID with
    | none => (.notFound, reg)
    | some _ => (.ok, registryTouch reg sessionID now)

/-- The registry-mutating events of the server: session creation, explicit
close, WebSocket attach, a `lastActive` touch from an attached bridge, and
one reaper tick. -/
inductive Event where
  | create (o : Oracles) : Event
  | closeReq (sessionID : String) : Event
  | attach (sessionID machineID : String) (now : Nat) : Event
  | touch (sessionID : String) (now : Nat) : Event
  | tick (now : Nat) : Event

/-- How each event transforms the registry. -/
def stepRegistry (reg : Registry) : Event → Registry
  | .create o => (createSession o reg).2.1
  | .closeReq sessionID => (closeSessionHandler reg sessionID).2.1
  | .attach sessionID machineID now => (wsAttach reg sessionID machineID now).2
  | .touch sessionID now => registryTouch reg sessionID now
  | .tick now => (sessionCleanerTick now reg).1

/-- The registry reached from the empty initial state (main.go:31) by a
sequence of events. -/
def runEvents (evs : List Event) : Registry :=
  evs.foldl stepRegistry ([] : Registry)

/-- The interface names owned by a session: the bridge plus every tap. -/
def ifaceNames (s : Session) : List String :=
  s.bridgeName :: s.tapNames.map Prod.snd

/-- The commands actually executed among a list of network actions. -/
def runCmdsOf (acts : List NetAction) : List (List String) :=
  acts.filterMap (fun a => match a with | .run c => some c | .query _ => none)

/-- The error message `runCommand` produces for a failed command. -/
def cmdFailMsg (args : List String) (ev out : String) : String :=
  "command '" ++ String.intercalate " " args ++ "' failed: " ++ ev ++ ", output: " ++ out

/-- The hash `createSession` derives when `crypto/rand` succeeds: hex of the
first three random bytes. -/
def hash6 (o : Oracles) : String :=
  hexEncode ((List.range 3).map (fun i => o.randByte i % 256))

/-- The fully provisioned session `createSession` registers on success. -/
def builtSession (o : Oracles) : Session :=
  { freshSession o (hash6 o) with
    ptyFiles := [("1", o.ptyHandle "1"), ("2", o.ptyHandle "2")],
    cmds := [("1", o.procHandle "1"), ("2", o.procHandle "2")] }

/-- The session state after machine 1 started but before machine 2. -/
def session1 (o : Oracles) : Session :=
  { freshSession o (hash6 o) with
    ptyFiles := [("1", o.ptyHandle "1")],
    cmds := [("1", o.procHandle "1")] }

/-- VM processes started during a `createSession` attempt and never killed
by it. -/
def leakedProcs (t : CreateTrace) : List String :=
  t.started.filter (fun i => ¬ i ∈ t.killed)

/-- A session's provisioning shape as the registry invariant needs it: the
names are derived from the 6-character hash and the handle maps cover exactly
machine ids "1" and "2". -/
def goodSession (s : Session) : Prop :=
  s.hash.length = 6
  ∧ s.bridgeName = "br-" ++ s.hash
  ∧ s.tapNames = [("1", "tap1-" ++ s.hash), ("2", "tap2-" ++ s.hash)]
  ∧ s.ptyFiles.map Prod.fst = ["1", "2"]
  ∧ s.cmds.map Prod.fst = ["1", "2"]

instance (s : Session) : Decidable (goodSession s) := by
  unfold goodSession; infer_instance

/-- Registry invariant: every entry is keyed by its session's hash, every
registered session is fully provisioned, and keys are unique. -/
def RegInv (reg : Registry) : Prop :=
  (∀ p ∈ reg, p.1 = p.2.hash ∧ goodSession p.2) ∧ (reg.map Prod.fst).Nodup

/-- Whether a command mentioning `x` occurs strictly before the first command
mentioning `y`. -/
def mentionsBefore (cmds : List (List String)) (x y : String) : Prop :=
  cmds.findIdx (fun c => c.contains x) < cmds.findIdx (fun c => c.contains y)

instance (cmds : List (List String)) (x y : String) : Decidable (mentionsBefore cmds x y) := by
  unfold mentionsBefore; infer_instance

/-- A command oracle under which every command succeeds. -/
def allOkCmds : CmdOracle := fun _ => CmdResult.ok

/-- A command oracle: the bridge-existence query reports the device absent,
every other command succeeds. -/
def showAbsent : CmdOracle := fun args =>
  if args.take 3 = ["ip", "link", "show"] then
    CmdResult.err "exit status 1" "Device does not exist."
  else CmdResult.ok

/-- Oracles for a fully successful `createSession` run (hash "000000"). -/
def oraclesAllOk : Oracles :=
  { randOk := true, randByte := fun _ => 0, cmd := showAbsent,
    start := fun _ => true, ptyHandle := fun _ => 11, procHandle := fun _ => 21,
    now := 42 }

/-- Oracles where machine 1 starts but machine 2's `pty.Start` fails. -/
def oraclesStart2Fails : Oracles :=
  { oraclesAllOk with start := fun m => m != "2" }

/-- The concrete session with hash "000000" before provisioning. -/
def sessionZ : Session := freshSession oraclesAllOk "000000"

/-- A command oracle whose bridge-down command fails with an unexpected
(non-"already gone") error; everything else succeeds. -/
def permissionDenied : CmdOracle := fun args =>
  if args = ["ip", "link", "set", "br-000000", "down"] then
    CmdResult.err "exit status 2" "RTNETLINK answers: Operation not permitted"
  else CmdResult.ok

/-- A command oracle whose bridge-down command fails with a "Cannot find
device" error; everything else succeeds. -/
def deviceGone : CmdOracle := fun args =>
  if args = ["ip", "link", "set", "br-000000", "down"] then
    CmdResult.err "exit status 1" "Cannot find device \"br-000000\""
  else CmdResult.ok

/-- A command oracle where the bridge pre-exists and its deletion fails. -/
def deleteFails : CmdOracle := fun args =>
  if args = ["ip", "link", "delete", "br-000000", "type", "bridge"] then
    CmdResult.err "exit status 2" "boom"
  else CmdResult.ok

/-- The tap commands `setupNetwork` plans for a list of taps. -/
def tapCmdsOf (bridge : String) (taps : List (String × String)) : List (List String) :=
  (taps.map (fun p =>
    [["ip", "tuntap", "add", "mode", "tap", p.2],
     ["ip", "link", "set", p.2, "master", bridge],
     ["ip", "link", "set", p.2, "up"]])).flatten

/-- The full provisioning command plan of `setupNetwork` after the
stale-bridge check: create bridge, bridge up, then per tap
create/master/up. -/
def setupPlanCmds (s : Session) : List (List String) :=
  ["ip", "link", "add", s.bridgeName, "type", "bridge"]
  :: ["ip", "link", "set", s.bridgeName, "up"]
  :: tapCmdsOf s.bridgeName s.tapNames

/-! ### Helper lemmas -/

theorem containsStr_iff (hay pat : String) :
    containsStr hay pat = true ↔ pat.data <:+: hay.data := by
  simp [containsStr, String.toList]

theorem containsStr_append_left (a b pat : String)
    (h : containsStr b pat = true) : containsStr (a ++ b) pat = true := by
  rw [containsStr_iff] at h ⊢
  rw [String.data_append]
  exact h.trans ⟨a.data, [], by simp⟩

theorem containsStr_sandwich (x pat y : String) :
    containsStr (x ++ pat ++ y) pat = true := by
  rw [containsStr_iff]
  simp

theorem containsStr_append_right (a b pat : String)
    (h : containsStr a pat = true) : containsStr (a ++ b) pat = true := by
  rw [containsStr_iff] at h ⊢
  rw [String.data_append]
  exact h.trans ⟨[], b.data, by simp⟩

theorem hexEncode_length (bs : List Nat) : (hexEncode bs).length = 2 * bs.length := by
  induction bs with
  | nil => rfl
  | cons b rest ih =>
      simp only [hexEncode, String.length, List.map_cons, List.flatten_cons] at ih ⊢
      simp only [List.length_append, List.length_cons, List.length_nil] at ih ⊢
      omega

theorem getD_mem {α : Type} (l : List α) (i : Nat) (d : α) (h : i < l.length) :
    l.getD i d ∈ l := by
  induction l generalizing i with
  | nil => simp at h
  | cons a t ih =>
      cases i with
      | zero => simp [List.getD]
      | succ j =>
          simp only [List.getD_cons_succ]
          exact List.mem_cons_of_mem _ (ih j (by simpa using h))

theorem hexDigit_mem (n : Nat) : hexDigit n ∈ hexDigits := by
  unfold hexDigit
  exact getD_mem _ _ _ (by
    have : n % 16 < 16 := Nat.mod_lt _ (by decide)
    simpa [hexDigits] using this)

theorem hexEncode_chars (bs : List Nat) : ∀ c ∈ (hexEncode bs).data, c ∈ hexDigits := by
  induction bs with
  | nil => intro c hc; simp [hexEncode] at hc
  | cons b rest ih =>
      intro c hc
      simp only [hexEncode, List.map_cons, List.flatten_cons] at hc
      rcases List.mem_append.mp hc with h | h
      · simp only [List.mem_cons, List.not_mem_nil, or_false] at h
        rcases h with rfl | rfl
        · exact hexDigit_mem _
        · exact hexDigit_mem _
      · exact ih c h

theorem hash6_length (o : Oracles) : (hash6 o).length = 6 := by
  simp [hash6, hexEncode_length]

theorem generateShortHash_ok (o : Oracles) (hr : o.randOk = true) :
    generateShortHash o 6 = .ok (hash6 o) := by
  simp [generateShortHash, hr, hash6]

theorem createSession_cases (o : Oracles) (reg : Registry) (hr : o.randOk = true) :
    (∃ e acts, setupNetwork o.cmd (freshSession o (hash6 o)) = (.error e, acts)
       ∧ createSession o reg
           = (.error ("failed to set up network: " ++ e), reg,
              { emptyTrace with setupActions := acts }))
  ∨ (∃ acts, setupNetwork o.cmd (freshSession o (hash6 o)) = (.ok (), acts)
       ∧ o.start "1" = false
       ∧ createSession o reg
           = (.error "failed to start machine 1: error starting QEMU machine 1: pty start failed",
              reg,
              { setupActions := acts, started := [], killed := [], cleanupRan := true,
                cleanupCmds := (cleanupNetwork o.cmd (freshSession o (hash6 o))).2,
                guardTripped := false }))
  ∨ (∃ acts, setupNetwork o.cmd (freshSession o (hash6 o)) = (.ok (), acts)
       ∧ o.start "1" = true ∧ o.start "2" = false
       ∧ createSession o reg
           = (.error "failed to start machine 2: error starting QEMU machine 2: pty start failed",
              reg,
              { setupActions := acts, started := ["1"], killed := [], cleanupRan := true,
                cleanupCmds := (cleanupNetwork o.cmd (session1 o)).2,
                guardTripped := false }))
  ∨ (∃ acts, setupNetwork o.cmd (freshSession o (hash6 o)) = (.ok (), acts)
       ∧ o.start "1" = true ∧ o.start "2" = true
       ∧ createSession o reg
           = (.ok (builtSession o), registryInsert reg (hash6 o) (builtSession o),
              { setupActions := acts, started := ["1", "2"], killed := [], cleanupRan := false,
                cleanupCmds := [], guardTripped := false })) := by
  have hgen := generateShortHash_ok o hr
  have h9 : ("br-" ++ hash6 o).length = 9 := by
    rw [String.length_append, hash6_length]; rfl
  have h11a : ("tap1-" ++ hash6 o).length = 11 := by
    rw [String.length_append, hash6_length]; rfl
  have h11b : ("tap2-" ++ hash6 o).length = 11 := by
    rw [String.length_append, hash6_length]; rfl
  rcases hsn : setupNetwork o.cmd (freshSession o (hash6 o)) with ⟨res, acts⟩
  simp only [freshSession] at hsn
  cases res with
  | error e =>
      left
      exact ⟨e, acts, rfl, by
        simp [createSession, hgen, hsn, h9, h11a, h11b, emptyTrace, freshSession]⟩
  | ok u =>
      cases u
      cases hs1 : o.start "1" with
      | false =>
          right; left
          exact ⟨acts, rfl, rfl, by
            simp [createSession, hgen, hsn, h9, h11a, h11b, startMachine, hs1, freshSession]⟩
      | true =>
          cases hs2 : o.start "2" with
          | false =>
              right; right; left
              exact ⟨acts, rfl, rfl, rfl, by
                simp [createSession, hgen, hsn, h9, h11a, h11b, startMachine, hs1, hs2,
                  session1, freshSession]⟩
          | true =>
              right; right; right
              exact ⟨acts, rfl, rfl, rfl, by
                simp [createSession, hgen, hsn, h9, h11a, h11b, startMachine, hs1, hs2,
                  builtSession, freshSession]⟩

theorem string_eq_of_append_eq {a b c : String} (h : a ++ b = a ++ c) : b = c := by
  have hd := congrArg String.data h
  rw [String.data_append, String.data_append] at hd
  have h2 := List.append_cancel_left hd
  cases b; cases c
  exact congrArg String.mk h2

theorem append_hash_ne (p : String) {a b : String} (hne : a ≠ b) : p ++ a ≠ p ++ b :=
  fun h => hne (string_eq_of_append_eq h)

theorem ne_of_string_length_ne {a b : String} (h : a.length ≠ b.length) : a ≠ b :=
  fun e => h (congrArg String.length e)

theorem tap1_ne_tap2 (a b : String) : "tap1-" ++ a ≠ "tap2-" ++ b := by
  intro h
  have hd := congrArg String.data h
  rw [String.data_append, String.data_append] at hd
  have h5 := congrArg (List.take 5) hd
  rw [List.take_left' (by rfl), List.take_left' (by rfl)] at h5
  exact absurd h5 (by decide)

theorem ifaceNames_pairwise {h1 h2 : String} (l1 : h1.length = 6) (l2 : h2.length = 6)
    (hne : h1 ≠ h2) :
    ∀ n ∈ ["br-" ++ h1, "tap1-" ++ h1, "tap2-" ++ h1],
      n ∉ ["br-" ++ h2, "tap1-" ++ h2, "tap2-" ++ h2] := by
  have len1 : ("br-" ++ h1).length = 9 := by rw [String.length_append, l1]; rfl
  have len2 : ("br-" ++ h2).length = 9 := by rw [String.length_append, l2]; rfl
  have lt11 : ("tap1-" ++ h1).length = 11 := by rw [String.length_append, l1]; rfl
  have lt12 : ("tap1-" ++ h2).length = 11 := by rw [String.length_append, l2]; rfl
  have lt21 : ("tap2-" ++ h1).length = 11 := by rw [String.length_append, l1]; rfl
  have lt22 : ("tap2-" ++ h2).length = 11 := by rw [String.length_append, l2]; rfl
  intro n hn hm
  simp only [List.mem_cons, List.not_mem_nil, or_false] at hn hm
  rcases hn with rfl | rfl | rfl <;> rcases hm with he | he | he
  · exact append_hash_ne _ hne he
  · exact ne_of_string_length_ne (by rw [len1, lt12]; decide) he
  · exact ne_of_string_length_ne (by rw [len1, lt22]; decide) he
  · exact ne_of_string_length_ne (by rw [lt11, len2]; decide) he
  · exact append_hash_ne _ hne he
  · exact tap1_ne_tap2 _ _ he
  · exact ne_of_string_length_ne (by rw [lt21, len2]; decide) he
  · exact (tap1_ne_tap2 _ _ he.symm).elim
  · exact append_hash_ne _ hne he

theorem registryTouch_keys (reg : Registry) (k : String) (n : Nat) :
    (registryTouch reg k n).map Prod.fst = reg.map Prod.fst := by
  simp only [registryTouch, List.map_map]
  apply List.map_congr_left
  intro p _
  by_cases h : p.1 = k <;> simp [h, Function.comp]

theorem registryTouch_mem {reg : Registry} {k : String} {n : Nat} {p : String × Session}
    (h : p ∈ registryTouch reg k n) :
    ∃ q ∈ reg, p = q ∨ p = (q.1, { q.2 with lastActive := n }) := by
  rcases List.mem_map.mp h with ⟨q, hq, rfl⟩
  refine ⟨q, hq, ?_⟩
  by_cases hk : q.1 = k <;> simp [hk]

theorem registryTouch_lookup (reg : Registry) (k : String) (n : Nat) :
    registryLookup (registryTouch reg k n) k
      = (registryLookup reg k).map (fun s => { s with lastActive := n }) := by
  induction reg with
  | nil => rfl
  | cons p rest ih =>
      by_cases h : p.1 = k
      · simp [registryTouch, registryLookup, List.find?_cons, h]
      · simpa [registryTouch, registryLookup, List.find?_cons, h] using ih

theorem goodSession_touch {s : Session} (n : Nat) (h : goodSession s) :
    goodSession { s with lastActive := n } := h

/-- `goodSession` holds for the session a successful creation registers. -/
theorem goodSession_built (o : Oracles) : goodSession (builtSession o) := by
  refine ⟨hash6_length o, rfl, rfl, rfl, rfl⟩

theorem regInv_nil : RegInv [] := ⟨by simp, by simp⟩

theorem keys_sublist_filter (reg : Registry) (q : String × Session → Bool) :
    ((reg.filter q).map Prod.fst).Sublist (reg.map Prod.fst) :=
  (List.filter_sublist reg).map Prod.fst

theorem regInv_filter (reg : Registry) (q : String × Session → Bool) (h : RegInv reg) :
    RegInv (reg.filter q) := by
  refine ⟨fun p hp => h.1 p (List.mem_filter.mp hp).1, ?_⟩
  exact h.2.sublist (keys_sublist_filter reg q)

theorem regInv_insert (reg : Registry) (s : Session) (h : RegInv reg)
    (hg : goodSession s) : RegInv (registryInsert reg s.hash s) := by
  constructor
  · intro p hp
    rcases List.mem_append.mp hp with hp | hp
    · exact h.1 p (List.mem_filter.mp hp).1
    · simp only [List.mem_singleton] at hp
      subst hp
      exact ⟨rfl, hg⟩
  · rw [registryInsert, List.map_append]
    apply List.Nodup.append
    · exact h.2.sublist (keys_sublist_filter reg _)
    · simp
    · intro a ha hb
      simp only [List.map_cons, List.map_nil, List.mem_singleton] at hb
      rcases List.mem_map.mp ha with ⟨p, hp, hpa⟩
      have hne := (List.mem_filter.mp hp).2
      simp only [decide_eq_true_eq] at hne
      exact hne (hpa.trans hb)

theorem regInv_touch (reg : Registry) (k : String) (n : Nat) (h : RegInv reg) :
    RegInv (registryTouch reg k n) := by
  constructor
  · intro p hp
    rcases registryTouch_mem hp with ⟨q, hq, hpq | hpq⟩
    · rw [hpq]; exact h.1 q hq
    · rw [hpq]; exact ⟨(h.1 q hq).1, goodSession_touch n (h.1 q hq).2⟩
  · rw [registryTouch_keys]
    exact h.2

theorem regInv_step (reg : Registry) (e : Event) (h : RegInv reg) :
    RegInv (stepRegistry reg e) := by
  cases e with
  | create o =>
      show RegInv (createSession o reg).2.1
      cases hr : o.randOk
      · have : createSession o reg
            = (.error "failed to generate hash: rand read failed", reg, emptyTrace) := by
          simp [createSession, generateShortHash, hr]
        rw [this]
        exact h
      · rcases createSession_cases o reg hr with
          ⟨e, acts, _, hc⟩ | ⟨acts, _, _, hc⟩ | ⟨acts, _, _, _, hc⟩ | ⟨acts, _, _, _, hc⟩
        · rw [hc]; exact h
        · rw [hc]; exact h
        · rw [hc]; exact h
        · rw [hc]
          show RegInv (registryInsert reg (hash6 o) (builtSession o))
          have hb : (builtSession o).hash = hash6 o := rfl
          rw [← hb]
          exact regInv_insert reg (builtSession o) h (goodSession_built o)
  | closeReq sessionID =>
      show RegInv (closeSessionHandler reg sessionID).2.1
      by_cases hid : sessionID = ""
      · simp [closeSessionHandler, hid]; exact h
      · simp only [closeSessionHandler, hid, if_false]
        cases hl : registryLookup reg sessionID
        · exact h
        · exact regInv_filter reg _ h
  | attach sessionID machineID now =>
      show RegInv (wsAttach reg sessionID machineID now).2
      by_cases hid : sessionID = ""
      · simp [wsAttach, hid]; exact h
      · by_cases hm : machineID ≠ "1" ∧ machineID ≠ "2"
        · simp [wsAttach, hid, hm]; exact h
        · simp only [wsAttach, hid, hm, if_false]
          cases hl : registryLookup reg sessionID
          · simpa [hid, hm, hl] using h
          · simpa [hid, hm, hl] using regInv_touch reg sessionID now h
  | touch sessionID now =>
      exact regInv_touch reg sessionID now h
  | tick now =>
      exact regInv_filter reg _ h

theorem regInv_runEvents (evs : List Event) : RegInv (runEvents evs) := by
  suffices hgen : ∀ reg, RegInv reg → RegInv (evs.foldl stepRegistry reg) by
    exact hgen [] regInv_nil
  induction evs with
  | nil => intro reg h; exact h
  | cons e rest ih =>
      intro reg h
      exact ih (stepRegistry reg e) (regInv_step reg e h)

theorem cleanupLoop_map_fst (o : CmdOracle) (cmds : List (List String)) :
    (cleanupLoop o cmds).map Prod.fst = cmds := by
  induction cmds with
  | nil => rfl
  | cons c rest ih =>
      simp only [cleanupLoop]
      cases h : runCommand o c with
      | ok u => simp [ih]
      | error e =>
          dsimp only
          split <;> simp [ih]

theorem cleanupLoop_mem_ok {o : CmdOracle} {cmds : List (List String)} {c : List String}
    (hc : c ∈ cmds) (h : runCommand o c = .ok ()) :
    (c, CleanupOutcome.success) ∈ cleanupLoop o cmds := by
  induction cmds with
  | nil => simp at hc
  | cons a rest ih =>
      rcases List.mem_cons.mp hc with rfl | hc
      · simp only [cleanupLoop, h]
        exact List.mem_cons_self _ _
      · exact List.mem_cons_of_mem _ (ih hc)

theorem cleanupLoop_mem_gone {o : CmdOracle} {cmds : List (List String)} {c : List String}
    {e : String} (hc : c ∈ cmds) (h : runCommand o c = .error e)
    (habs : (containsStr e "Cannot find device" || containsStr e "No such device") = true) :
    (c, CleanupOutcome.alreadyGone) ∈ cleanupLoop o cmds := by
  induction cmds with
  | nil => simp at hc
  | cons a rest ih =>
      rcases List.mem_cons.mp hc with rfl | hc
      · simp only [cleanupLoop, h, habs, if_true]
        exact List.mem_cons_self _ _
      · exact List.mem_cons_of_mem _ (ih hc)

theorem cleanupLoop_mem_logged {o : CmdOracle} {cmds : List (List String)} {c : List String}
    {e : String} (hc : c ∈ cmds) (h : runCommand o c = .error e)
    (habs : (containsStr e "Cannot find device" || containsStr e "No such device") = false) :
    (c, CleanupOutcome.loggedError) ∈ cleanupLoop o cmds := by
  induction cmds with
  | nil => simp at hc
  | cons a rest ih =>
      rcases List.mem_cons.mp hc with rfl | hc
      · simp only [cleanupLoop, h, habs]
        exact List.mem_cons_self _ _
      · exact List.mem_cons_of_mem _ (ih hc)

theorem registryLookup_erase (reg : Registry) (k : String) :
    registryLookup (registryErase reg k) k = none := by
  induction reg with
  | nil => rfl
  | cons p rest ih =>
      by_cases h : p.1 = k
      · simp [registryErase, registryLookup, h, ih]
      · simp [registryErase, registryLookup, List.find?_cons, h, ih]

theorem wsReadLoop_range (la : Nat) (evs : List WsEvent) :
    wsReadLoop la evs = la ∨ ∃ e ∈ evs, wsReadLoop la evs = e.now := by
  induction evs generalizing la with
  | nil => left; rfl
  | cons e rest ih =>
      simp only [wsReadLoop]
      cases hr : e.read with
      | fail => left; rfl
      | msg t b =>
          dsimp only
          by_cases ht : t = BinaryMessage ∨ t = TextMessage
          · rw [if_pos ht]
            by_cases hw : e.ptyWriteOk = true
            · rw [if_pos hw]
              rcases ih e.now with h | ⟨e', he', h⟩
              · right; exact ⟨e, List.mem_cons_self _ _, h⟩
              · right; exact ⟨e', List.mem_cons_of_mem _ he', h⟩
            · rw [if_neg hw]; left; rfl
          · rw [if_neg ht]
            rcases ih e.now with h | ⟨e', he', h⟩
            · right; exact ⟨e, List.mem_cons_self _ _, h⟩
            · right; exact ⟨e', List.mem_cons_of_mem _ he', h⟩

/-! ### Claim theorems -/

/-- C4 (amended): `cleanupNetwork` attempts to bring down and delete every
interface of the session, the **bridge first and then the tap devices**
(not taps before bridge as claimed); every command in the list is attempted
no matter how earlier commands fail; a failure whose message says the device
is already absent is classified as `alreadyGone` (the `continue` branch, not
an error), a successful command as `success`, and any other failure is
merely logged (`loggedError`) without stopping the loop. -/
theorem cleanupNetwork_order_and_tolerance (o : CmdOracle) (s : Session) :
    ((cleanupNetwork o s).2.map Prod.fst = cleanupCommands s)
  ∧ (∀ c ∈ cleanupCommands s, runCommand o c = .ok () →
        (c, CleanupOutcome.success) ∈ (cleanupNetwork o s).2)
  ∧ (∀ c ∈ cleanupCommands s, ∀ e, runCommand o c = .error e →
        (containsStr e "Cannot find device" || containsStr e "No such device") = true →
        (c, CleanupOutcome.alreadyGone) ∈ (cleanupNetwork o s).2)
  ∧ (∀ c ∈ cleanupCommands s, ∀ e, runCommand o c = .error e →
        (containsStr e "Cannot find device" || containsStr e "No such device") = false →
        (c, CleanupOutcome.loggedError) ∈ (cleanupNetwork o s).2) := by
  refine ⟨cleanupLoop_map_fst o (cleanupCommands s), ?_, ?_, ?_⟩
  · intro c hc h; exact cleanupLoop_mem_ok hc h
  · intro c hc e h habs; exact cleanupLoop_mem_gone hc h habs
  · intro c hc e h habs; exact cleanupLoop_mem_logged hc h habs

theorem cleanupNetwork_order_witness :
    (cleanupNetwork deviceGone sessionZ).2.map Prod.fst = cleanupCommands sessionZ
  ∧ (["ip", "link", "set", "br-000000", "down"], CleanupOutcome.alreadyGone)
      ∈ (cleanupNetwork deviceGone sessionZ).2
  ∧ (["ip", "link", "delete", "br-000000", "type", "bridge"], CleanupOutcome.success)
      ∈ (cleanupNetwork deviceGone sessionZ).2 := by
  refine ⟨(cleanupNetwork_order_and_tolerance deviceGone sessionZ).1, ?_, ?_⟩
  · exact (cleanupNetwork_order_and_tolerance deviceGone sessionZ).2.2.1
      ["ip", "link", "set", "br-000000", "down"] (by decide)
      "command 'ip link set br-000000 down' failed: exit status 1, output: Cannot find device \"br-000000\""
      rfl (by decide)
  · exact (cleanupNetwork_order_and_tolerance deviceGone sessionZ).2.1
      ["ip", "link", "delete", "br-000000", "type", "bridge"] (by decide) rfl

/-- C4 (counterexample): the claim says the tap devices are processed before
the bridge; in fact the very first cleanup command targets the bridge, so no
tap command precedes the bridge commands. -/
theorem cleanupNetwork_bridge_first_counterexample :
    ((cleanupNetwork allOkCmds sessionZ).2.map Prod.fst).findIdx
        (fun c => c.contains "br-000000") = 0
  ∧ ¬ mentionsBefore ((cleanupNetwork allOkCmds sessionZ).2.map Prod.fst)
        "tap1-000000" "br-000000"
  ∧ ¬ mentionsBefore ((cleanupNetwork allOkCmds sessionZ).2.map Prod.fst)
        "tap2-000000" "br-000000" := by
  refine ⟨by decide, by decide, by decide⟩

/-- C5 (amended): `cleanupNetwork` unconditionally reports success — it ends
in `return nil` no matter which cleanup commands failed, and regardless of
whether the failures were of the "already gone" shape. -/
theorem cleanupNetwork_always_ok (o : CmdOracle) (s : Session) :
    (cleanupNetwork o s).1 = .ok () := rfl

/-- C5 (counterexample): the bridge-down command fails with an unexpected
error ("Operation not permitted", not an "already gone" shape), the failure
is recorded as a logged error, and `cleanupNetwork` still returns success —
refuting "the call does not report success" on unexpected errors. -/
theorem cleanupNetwork_success_despite_error :
    (cleanupNetwork permissionDenied sessionZ).1 = .ok ()
  ∧ (["ip", "link", "set", "br-000000", "down"], CleanupOutcome.loggedError)
      ∈ (cleanupNetwork permissionDenied sessionZ).2 := by
  refine ⟨rfl, by decide⟩

/-- C7 (confirmed): once a close request has removed a session id from the
registry, a second close request with the same id reports "not found",
performs no teardown (no session is handed to `cleanupSession`), and leaves
the registry unchanged. -/
theorem closeSession_second_not_found (reg : Registry) (sessionID : String)
    (h : (closeSessionHandler reg sessionID).1 = HStatus.ok) :
    (closeSessionHandler (closeSessionHandler reg sessionID).2.1 sessionID).1
        = HStatus.notFound
  ∧ (closeSessionHandler (closeSessionHandler reg sessionID).2.1 sessionID).2.2 = none
  ∧ (closeSessionHandler (closeSessionHandler reg sessionID).2.1 sessionID).2.1
        = (closeSessionHandler reg sessionID).2.1 := by
  by_cases hid : sessionID = ""
  · simp [closeSessionHandler, hid] at h
  · cases hl : registryLookup reg sessionID with
    | none => simp [closeSessionHandler, hid, hl] at h
    | some s =>
        simp [closeSessionHandler, hid, hl, registryLookup_erase]

theorem closeSession_second_not_found_witness :
    (closeSessionHandler
        (closeSessionHandler [("000000", sessionZ)] "000000").2.1 "000000").1
        = HStatus.notFound
  ∧ (closeSessionHandler
        (closeSessionHandler [("000000", sessionZ)] "000000").2.1 "000000").2.2 = none := by
  have h := closeSession_second_not_found [("000000", sessionZ)] "000000" (by decide)
  exact ⟨h.1, h.2.1⟩

/-- C8 (confirmed): on a reaper tick at time `now`, a registered session whose
`lastActive` is older than the timeout (`now - lastActive > sessionTimeout`)
is removed from the registry and scheduled for teardown, and a session whose
`lastActive` is more recent than the timeout is kept and not scheduled;
removal and teardown scheduling are part of the same atomic tick. -/
theorem reaper_tick_semantics (reg : Registry) (now : Nat) (p : String × Session)
    (hp : p ∈ reg) :
    (now - p.2.lastActive > sessionTimeout →
        p ∉ (sessionCleanerTick now reg).1 ∧ p ∈ (sessionCleanerTick now reg).2)
  ∧ (now - p.2.lastActive < sessionTimeout →
        p ∈ (sessionCleanerTick now reg).1 ∧ p ∉ (sessionCleanerTick now reg).2) := by
  constructor
  · intro h
    constructor
    · intro hmem
      have := (List.mem_filter.mp hmem).2
      simp only [decide_eq_true_eq] at this
      exact this h
    · exact List.mem_filter.mpr ⟨hp, by simpa using h⟩
  · intro h
    constructor
    · exact List.mem_filter.mpr ⟨hp, by simp; omega⟩
    · intro hmem
      have := (List.mem_filter.mp hmem).2
      simp only [decide_eq_true_eq] at this
      omega

theorem reaper_tick_semantics_witness :
    (("000000", sessionZ) ∉ (sessionCleanerTick 5000 [("000000", sessionZ)]).1
      ∧ ("000000", sessionZ) ∈ (sessionCleanerTick 5000 [("000000", sessionZ)]).2)
  ∧ (("000000", sessionZ) ∈ (sessionCleanerTick 100 [("000000", sessionZ)]).1
      ∧ ("000000", sessionZ) ∉ (sessionCleanerTick 100 [("000000", sessionZ)]).2) := by
  constructor
  · exact (reaper_tick_semantics [("000000", sessionZ)] 5000 ("000000", sessionZ)
      (by decide)).1 (by decide)
  · exact (reaper_tick_semantics [("000000", sessionZ)] 100 ("000000", sessionZ)
      (by decide)).2 (by decide)

/-- C1 (amended): on any `createSession` failure the session is never added
to the registry; but the rollback is partial: `createSession` never kills a
process it started (`killed` is always empty), a `setupNetwork` failure
triggers no cleanup at all, and a machine-launch failure triggers only
`cleanupNetwork` — in particular, when machine 2 fails to launch, the
already-started machine 1 remains running (`leakedProcs = ["1"]`). -/
theorem createSession_failure_rollback_shape (o : Oracles) (reg : Registry) :
    (∀ e, (createSession o reg).1 = .error e → (createSession o reg).2.1 = reg)
  ∧ ((createSession o reg).2.2.killed = [])
  ∧ (∀ e acts, o.randOk = true →
        setupNetwork o.cmd (freshSession o (hash6 o)) = (.error e, acts) →
        (createSession o reg).1 = .error ("failed to set up network: " ++ e)
          ∧ (createSession o reg).2.2.cleanupRan = false)
  ∧ (o.randOk = true → (setupNetwork o.cmd (freshSession o (hash6 o))).1 = .ok () →
        o.start "1" = true → o.start "2" = false →
        (createSession o reg).2.2.cleanupRan = true
          ∧ leakedProcs (createSession o reg).2.2 = ["1"]) := by
  cases hr : o.randOk with
  | false =>
      have hc : createSession o reg
          = (.error "failed to generate hash: rand read failed", reg, emptyTrace) := by
        simp [createSession, generateShortHash, hr]
      rw [hc]
      refine ⟨fun e _ => rfl, rfl, ?_, ?_⟩
      · intro e acts hrt _; simp [hr] at hrt
      · intro hrt; simp [hr] at hrt
  | true =>
      rcases createSession_cases o reg hr with
        ⟨e0, acts0, hsn, hc⟩ | ⟨acts0, hsn, hs1, hc⟩ |
        ⟨acts0, hsn, hs1, hs2, hc⟩ | ⟨acts0, hsn, hs1, hs2, hc⟩
      · rw [hc]
        refine ⟨fun e _ => rfl, rfl, ?_, ?_⟩
        · intro e acts _ hsn2
          rw [hsn] at hsn2
          obtain ⟨he, _⟩ := Prod.mk.injEq .. ▸ hsn2
          cases hsn2
          exact ⟨rfl, rfl⟩
        · intro _ hok _ _
          rw [hsn] at hok
          cases hok
      · rw [hc]
        refine ⟨fun e _ => rfl, rfl, ?_, ?_⟩
        · intro e acts _ hsn2
          rw [hsn] at hsn2
          cases hsn2
        · intro _ _ hs1t _
          rw [hs1] at hs1t
          cases hs1t
      · rw [hc]
        refine ⟨fun e _ => rfl, rfl, ?_, ?_⟩
        · intro e acts _ hsn2
          rw [hsn] at hsn2
          cases hsn2
        · intro _ _ _ _
          exact ⟨rfl, rfl⟩
      · rw [hc]
        refine ⟨?_, rfl, ?_, ?_⟩
        · intro e he; cases he
        · intro e acts _ hsn2
          rw [hsn] at hsn2
          cases hsn2
        · intro _ _ _ hs2f
          rw [hs2] at hs2f
          cases hs2f

/-- C1 (counterexample): machine 1 launches, machine 2's launch fails;
`createSession` reports the failure, runs only `cleanupNetwork`, adds nothing
to the registry — and machine 1's process is never killed: a VM process of
the attempted session remains, contradicting the claimed full rollback. -/
theorem createSession_machine2_failure_leaks_machine1 :
    (createSession oraclesStart2Fails []).1
        = Except.error "failed to start machine 2: error starting QEMU machine 2: pty start failed"
  ∧ (createSession oraclesStart2Fails []).2.2.started = ["1"]
  ∧ (createSession oraclesStart2Fails []).2.2.killed = []
  ∧ leakedProcs (createSession oraclesStart2Fails []).2.2 = ["1"]
  ∧ (createSession oraclesStart2Fails []).2.2.cleanupRan = true
  ∧ (createSession oraclesStart2Fails []).2.1 = [] :=
  ⟨rfl, rfl, rfl, rfl, rfl, rfl⟩

theorem createSession_failure_rollback_witness :
    (createSession oraclesStart2Fails []).2.2.cleanupRan = true
  ∧ leakedProcs (createSession oraclesStart2Fails []).2.2 = ["1"] :=
  (createSession_failure_rollback_shape oraclesStart2Fails []).2.2.2 rfl rfl rfl rfl

/-- C9 (amended): `lastActive` is set to the current time at session
creation and on every WebSocket attach; an inbound message that is
successfully read updates `lastActive` to the read-time **only if** it is a
text/binary message whose write to the pty succeeds (a failed pty write
breaks the loop before the touch); under a clock that never reads below the
current `lastActive`, `lastActive` never decreases. -/
theorem lastActive_update_rules :
    (∀ (o : Oracles) (reg : Registry) (s : Session) (r : Registry) (t : CreateTrace),
        createSession o reg = (.ok s, r, t) → s.lastActive = o.now)
  ∧ (∀ (reg : Registry) (sessionID machineID : String) (now : Nat) (s : Session),
        registryLookup reg sessionID = some s → sessionID ≠ "" →
        ¬ (machineID ≠ "1" ∧ machineID ≠ "2") →
        (wsAttach reg sessionID machineID now).1 = HStatus.ok
          ∧ registryLookup (wsAttach reg sessionID machineID now).2 sessionID
              = some { s with lastActive := now })
  ∧ (∀ (la : Nat) (e : WsEvent) (rest : List WsEvent) (mtype : Nat) (bytes : String),
        e.read = WsRead.msg mtype bytes →
        (mtype = BinaryMessage ∨ mtype = TextMessage) →
        e.ptyWriteOk = true →
        wsReadLoop la (e :: rest) = wsReadLoop e.now rest)
  ∧ (∀ (la : Nat) (evs : List WsEvent),
        (∀ e ∈ evs, la ≤ e.now) → la ≤ wsReadLoop la evs) := by
  refine ⟨?_, ?_, ?_, ?_⟩
  · intro o reg s r t h
    cases hr : o.randOk with
    | false =>
        have hc : createSession o reg
            = (.error "failed to generate hash: rand read failed", reg, emptyTrace) := by
          simp [createSession, generateShortHash, hr]
        rw [hc] at h
        cases Prod.mk.injEq .. ▸ h |>.1
    | true =>
        rcases createSession_cases o reg hr with
          ⟨e0, acts0, _, hc⟩ | ⟨acts0, _, _, hc⟩ | ⟨acts0, _, _, _, hc⟩ | ⟨acts0, _, _, _, hc⟩ <;>
          rw [hc] at h
        · cases h
        · cases h
        · cases h
        · obtain ⟨h1, -⟩ := Prod.mk.injEq .. ▸ h
          cases h1
          rfl
  · intro reg sessionID machineID now s hl hid hm
    constructor
    · simp [wsAttach, hid, hm, hl]
    · simp [wsAttach, hid, hm, hl, registryTouch_lookup]
  · intro la e rest mtype bytes hread ht hw
    simp only [wsReadLoop, hread]
    rw [if_pos ht, if_pos hw]
  · intro la evs h
    rcases wsReadLoop_range la evs with hq | ⟨e, he, hq⟩
    · rw [hq]
    · rw [hq]; exact h e he

/-- C9 (counterexample): a binary message is successfully read from the
WebSocket (at time 100, sent at time 99), but the write to the machine pty
fails; the loop breaks before the touch, so `lastActive` stays 0 — the
successful inbound read did not update `lastActive` to a value ≥ the time
just before the message was sent. -/
theorem ws_write_failure_skips_touch :
    wsReadLoop 0 [{ read := WsRead.msg 2 "x", now := 100, ptyWriteOk := false }] = 0
  ∧ ¬ (99 ≤ wsReadLoop 0 [{ read := WsRead.msg 2 "x", now := 100, ptyWriteOk := false }]) :=
  ⟨rfl, by decide⟩

theorem lastActive_update_rules_witness :
    (builtSession oraclesAllOk).lastActive = 42
  ∧ wsReadLoop 0 [{ read := WsRead.msg 2 "x", now := 100, ptyWriteOk := true }] = 100 := by
  constructor
  · exact lastActive_update_rules.1 oraclesAllOk [] (builtSession oraclesAllOk)
      (registryInsert [] (hash6 oraclesAllOk) (builtSession oraclesAllOk))
      { setupActions := (setupNetwork oraclesAllOk.cmd
            (freshSession oraclesAllOk (hash6 oraclesAllOk))).2,
        started := ["1", "2"], killed := [], cleanupRan := false,
        cleanupCmds := [], guardTripped := false }
      rfl
  · have h := lastActive_update_rules.2.2.1 0
      { read := WsRead.msg 2 "x", now := 100, ptyWriteOk := true } [] 2 "x"
      rfl (Or.inl rfl) rfl
    exact h.trans rfl

/-- C10 (confirmed): `generateShortHash n` hex-encodes `(min n 12) / 2`
random bytes, giving a string of `2 * ((min n 12) / 2)` lowercase-hex
characters; for the `n = 6` used by `createSession` that is exactly 6
characters, so the derived bridge name has length 9, each tap name length
11, and the `>15` interface-name guard in `createSession` never trips. -/
theorem shortHash_and_name_lengths (o : Oracles) (hr : o.randOk = true) :
    (∀ n, generateShortHash o n
        = .ok (hexEncode ((List.range ((min n 12) / 2)).map (fun i => o.randByte i % 256))))
  ∧ (∀ n str, generateShortHash o n = .ok str → str.length = 2 * ((min n 12) / 2))
  ∧ generateShortHash o 6 = .ok (hash6 o)
  ∧ (hash6 o).length = 6
  ∧ (∀ c ∈ (hash6 o).data, c ∈ hexDigits)
  ∧ (∀ reg, (createSession o reg).2.2.guardTripped = false)
  ∧ (∀ reg s r t, createSession o reg = (.ok s, r, t) →
        s.hash = hash6 o ∧ s.hash.length = 6 ∧ s.bridgeName.length = 9
          ∧ ∀ q ∈ s.tapNames, q.2.length = 11) := by
  have hmin : ∀ n : Nat, (if n > 12 then 12 else n) = min n 12 := by
    intro n; split <;> omega
  have h1 : ∀ n, generateShortHash o n
      = .ok (hexEncode ((List.range ((min n 12) / 2)).map (fun i => o.randByte i % 256))) := by
    intro n
    simp only [generateShortHash, hr, if_true, hmin]
  refine ⟨h1, ?_, generateShortHash_ok o hr, hash6_length o, hexEncode_chars _, ?_, ?_⟩
  · intro n str h
    rw [h1 n] at h
    cases h
    rw [hexEncode_length, List.length_map, List.length_range]
  · intro reg
    rcases createSession_cases o reg hr with
      ⟨e0, acts0, _, hc⟩ | ⟨acts0, _, _, hc⟩ | ⟨acts0, _, _, _, hc⟩ | ⟨acts0, _, _, _, hc⟩ <;>
      (rw [hc]; try rfl)
  · intro reg s r t h
    rcases createSession_cases o reg hr with
      ⟨e0, acts0, _, hc⟩ | ⟨acts0, _, _, hc⟩ | ⟨acts0, _, _, _, hc⟩ | ⟨acts0, _, _, _, hc⟩ <;>
      rw [hc] at h
    · cases h
    · cases h
    · cases h
    · obtain ⟨h1s, -⟩ := Prod.mk.injEq .. ▸ h
      cases h1s
      refine ⟨rfl, hash6_length o, ?_, ?_⟩
      · show ("br-" ++ hash6 o).length = 9
        rw [String.length_append, hash6_length]; rfl
      · intro q hq
        have : q = ("1", "tap1-" ++ hash6 o) ∨ q = ("2", "tap2-" ++ hash6 o) := by
          simpa [builtSession, freshSession] using hq
        rcases this with rfl | rfl
        · show ("tap1-" ++ hash6 o).length = 11
          rw [String.length_append, hash6_length]; rfl
        · show ("tap2-" ++ hash6 o).length = 11
          rw [String.length_append, hash6_length]; rfl

theorem shortHash_witness :
    generateShortHash oraclesAllOk 6 = .ok (hash6 oraclesAllOk)
  ∧ (hash6 oraclesAllOk).length = 6
  ∧ (∀ reg, (createSession oraclesAllOk reg).2.2.guardTripped = false) := by
  have h := shortHash_and_name_lengths oraclesAllOk rfl
  exact ⟨h.2.2.1, h.2.2.2.1, h.2.2.2.2.2.1⟩

/-- C2 (confirmed): in every registry state reachable by any sequence of
server events, every registered session is keyed by its hash and holds pty
and process handles for exactly the machine ids "1" and "2" it was created
with; and a session is only handed to registration after `setupNetwork` and
both `startMachine` calls succeeded, already fully populated. -/
theorem registry_fully_provisioned :
    (∀ evs : List Event, ∀ p ∈ runEvents evs,
        p.1 = p.2.hash
          ∧ p.2.ptyFiles.map Prod.fst = ["1", "2"]
          ∧ p.2.cmds.map Prod.fst = ["1", "2"]
          ∧ p.2.tapNames = [("1", "tap1-" ++ p.2.hash), ("2", "tap2-" ++ p.2.hash)])
  ∧ (∀ (o : Oracles) (reg : Registry) (s : Session) (r : Registry) (t : CreateTrace),
        createSession o reg = (.ok s, r, t) →
        (setupNetwork o.cmd (freshSession o s.hash)).1 = .ok ()
          ∧ o.start "1" = true ∧ o.start "2" = true
          ∧ s.ptyFiles.map Prod.fst = ["1", "2"]
          ∧ s.cmds.map Prod.fst = ["1", "2"]) := by
  constructor
  · intro evs p hp
    have h := (regInv_runEvents evs).1 p hp
    exact ⟨h.1, h.2.2.2.2.1, h.2.2.2.2.2, h.2.2.2.1⟩
  · intro o reg s r t h
    cases hr : o.randOk with
    | false =>
        have hc : createSession o reg
            = (.error "failed to generate hash: rand read failed", reg, emptyTrace) := by
          simp [createSession, generateShortHash, hr]
        rw [hc] at h
        cases h
    | true =>
        rcases createSession_cases o reg hr with
          ⟨e0, acts0, _, hc⟩ | ⟨acts0, _, _, hc⟩ | ⟨acts0, _, _, _, hc⟩ |
          ⟨acts0, hsn, hs1, hs2, hc⟩ <;> rw [hc] at h
        · cases h
        · cases h
        · cases h
        · obtain ⟨h1s, -⟩ := Prod.mk.injEq .. ▸ h
          cases h1s
          refine ⟨?_, hs1, hs2, rfl, rfl⟩
          rw [show freshSession o (builtSession o).hash
              = freshSession o (hash6 o) from rfl, hsn]

theorem registry_fully_provisioned_witness :
    ("000000", builtSession oraclesAllOk).1 = (builtSession oraclesAllOk).hash
  ∧ (builtSession oraclesAllOk).ptyFiles.map Prod.fst = ["1", "2"]
  ∧ (builtSession oraclesAllOk).cmds.map Prod.fst = ["1", "2"] := by
  have h := registry_fully_provisioned.1 [Event.create oraclesAllOk]
      ("000000", builtSession oraclesAllOk) (by decide)
  exact ⟨h.1, h.2.1, h.2.2.1⟩

/-- C3 (confirmed): a successful `createSession` returns a session whose
interface names are all at most 15 characters, are each derived
deterministically from the session id (`br-`, `tap1-`, `tap2-` plus the
hash), and are distinct from the interface names of every other session
registered after the call. -/
theorem create_names_short_unique
    (o : Oracles) (evs : List Event) (s : Session) (r : Registry) (t : CreateTrace)
    (h : createSession o (runEvents evs) = (.ok s, r, t)) :
    (∀ n ∈ ifaceNames s, n.length ≤ 15)
  ∧ s.bridgeName = "br-" ++ s.hash
  ∧ s.tapNames = [("1", "tap1-" ++ s.hash), ("2", "tap2-" ++ s.hash)]
  ∧ (∀ q ∈ r, q.1 ≠ s.hash → ∀ n ∈ ifaceNames q.2, n ∉ ifaceNames s) := by
  cases hr : o.randOk with
  | false =>
      have hc : createSession o (runEvents evs)
          = (.error "failed to generate hash: rand read failed", runEvents evs, emptyTrace) := by
        simp [createSession, generateShortHash, hr]
      rw [hc] at h
      cases h
  | true =>
      rcases createSession_cases o (runEvents evs) hr with
        ⟨e0, acts0, _, hc⟩ | ⟨acts0, _, _, hc⟩ | ⟨acts0, _, _, _, hc⟩ |
        ⟨acts0, hsn, hs1, hs2, hc⟩ <;> rw [hc] at h
      · cases h
      · cases h
      · cases h
      · obtain ⟨h1s, h2s⟩ := Prod.mk.injEq .. ▸ h
        obtain ⟨hreg, -⟩ := Prod.mk.injEq .. ▸ h2s
        cases h1s
        have hnames : ifaceNames (builtSession o)
            = ["br-" ++ hash6 o, "tap1-" ++ hash6 o, "tap2-" ++ hash6 o] := rfl
        refine ⟨?_, rfl, rfl, ?_⟩
        · intro n hn
          rw [hnames] at hn
          simp only [List.mem_cons, List.not_mem_nil, or_false] at hn
          rcases hn with rfl | rfl | rfl
          · rw [String.length_append, hash6_length]; decide
          · rw [String.length_append, hash6_length]; decide
          · rw [String.length_append, hash6_length]; decide
        · intro q hq hne n hn hm
          rw [← hreg] at hq
          rcases List.mem_append.mp hq with hq | hq
          · have hqreg : q ∈ runEvents evs := (List.mem_filter.mp hq).1
            have hinv := (regInv_runEvents evs).1 q hqreg
            have hqh : q.2.hash ≠ (builtSession o).hash := fun he => hne (hinv.1.trans he)
            have good := hinv.2
            have hqnames : ifaceNames q.2
                = ["br-" ++ q.2.hash, "tap1-" ++ q.2.hash, "tap2-" ++ q.2.hash] := by
              rw [ifaceNames, good.2.1, good.2.2.1]
              rfl
            rw [hqnames] at hn
            rw [hnames] at hm
            exact ifaceNames_pairwise good.1 (hash6_length o) hqh n hn hm
          · simp only [List.mem_singleton] at hq
            rw [hq] at hne
            exact hne rfl

theorem create_names_short_unique_witness :
    (builtSession oraclesAllOk).bridgeName.length ≤ 15
  ∧ (builtSession oraclesAllOk).bridgeName = "br-" ++ (builtSession oraclesAllOk).hash
  ∧ (builtSession oraclesAllOk).tapNames
      = [("1", "tap1-" ++ (builtSession oraclesAllOk).hash),
         ("2", "tap2-" ++ (builtSession oraclesAllOk).hash)] := by
  have h := create_names_short_unique oraclesAllOk [] (builtSession oraclesAllOk)
      (registryInsert [] (hash6 oraclesAllOk) (builtSession oraclesAllOk))
      { setupActions := (setupNetwork oraclesAllOk.cmd
            (freshSession oraclesAllOk (hash6 oraclesAllOk))).2,
        started := ["1", "2"], killed := [], cleanupRan := false,
        cleanupCmds := [], guardTripped := false }
      rfl
  exact ⟨h.1 _ (List.mem_cons_self _ _), h.2.1, h.2.2.1⟩

theorem containsStr_right (x pat : String) : containsStr (x ++ pat) pat = true := by
  rw [containsStr_iff, String.data_append]
  exact ⟨x.data, [], by simp⟩

theorem runCmdsOf_query_runs (b : String) (cmds : List (List String)) :
    runCmdsOf (NetAction.query b :: cmds.map NetAction.run) = cmds := by
  simp only [runCmdsOf, List.filterMap_cons]
  induction cmds with
  | nil => rfl
  | cons c rest ih => simpa [List.filterMap_cons] using ih

theorem runCmdsOf_query_del_runs (b : String) (d : List String) (cmds : List (List String)) :
    runCmdsOf (NetAction.query b :: NetAction.run d :: cmds.map NetAction.run) = d :: cmds := by
  simp only [runCmdsOf, List.filterMap_cons]
  have := runCmdsOf_query_runs b cmds
  simp only [runCmdsOf, List.filterMap_cons] at this
  rw [this]

theorem tapSetup_cases (o : CmdOracle) (b : String) (taps : List (String × String)) :
    ((tapSetup o b taps).1 = .ok ()
       ∧ (tapSetup o b taps).2 = tapCmdsOf b taps
       ∧ ∀ c ∈ (tapSetup o b taps).2, o c = CmdResult.ok)
  ∨ (∃ e, (tapSetup o b taps).1 = .error e
       ∧ (∃ n, (tapSetup o b taps).2 = (tapCmdsOf b taps).take n)
       ∧ (tapSetup o b taps).2 ≠ []
       ∧ (∀ c ∈ (tapSetup o b taps).2.dropLast, o c = CmdResult.ok)
       ∧ (∀ c, (tapSetup o b taps).2.getLast? = some c → ∃ ev out, o c = CmdResult.err ev out)
       ∧ (∃ tap ∈ taps.map Prod.snd, containsStr e tap = true)) := by
  induction taps with
  | nil =>
      left
      exact ⟨rfl, rfl, by intro c hc; simp [tapSetup] at hc⟩
  | cons p rest ih =>
      rcases p with ⟨m, tap⟩
      have hcont1 : containsStr ("failed to create TAP device " ++ tap ++ ": ") tap = true :=
        containsStr_sandwich _ _ _
      have hcont2 : containsStr ("failed to attach TAP device " ++ tap ++ " to bridge "
          ++ b ++ ": ") tap = true := by
        have h0 : containsStr ("failed to attach TAP device " ++ tap) tap = true :=
          containsStr_right _ _
        exact containsStr_append_right _ _ _
          (containsStr_append_right _ _ _ (containsStr_append_right _ _ _ h0))
      have hcont3 : containsStr ("failed to bring up TAP device " ++ tap ++ ": ") tap = true :=
        containsStr_sandwich _ _ _
      cases h1 : o ["ip", "tuntap", "add", "mode", "tap", tap] with
      | err ev out =>
          right
          refine ⟨"failed to create TAP device " ++ tap ++ ": "
              ++ cmdFailMsg ["ip", "tuntap", "add", "mode", "tap", tap] ev out,
            ?_, ⟨1, ?_⟩, ?_, ?_, ?_, ?_⟩
          · simp [tapSetup, runCommand, cmdFailMsg, h1]
          · simp [tapSetup, runCommand, h1, tapCmdsOf]
          · simp [tapSetup, runCommand, h1]
          · intro c hc; simp [tapSetup, runCommand, h1] at hc
          · intro c hc
            simp only [tapSetup, runCommand, h1, List.getLast?_singleton, Option.some.injEq] at hc
            exact ⟨ev, out, hc ▸ h1⟩
          · exact ⟨tap, by simp, containsStr_append_right _ _ _ hcont1⟩
      | ok =>
          cases h2 : o ["ip", "link", "set", tap, "master", b] with
          | err ev out =>
              right
              refine ⟨"failed to attach TAP device " ++ tap ++ " to bridge " ++ b ++ ": "
                  ++ cmdFailMsg ["ip", "link", "set", tap, "master", b] ev out,
                ?_, ⟨2, ?_⟩, ?_, ?_, ?_, ?_⟩
              · simp [tapSetup, runCommand, cmdFailMsg, h1, h2]
              · simp [tapSetup, runCommand, h1, h2, tapCmdsOf]
              · simp [tapSetup, runCommand, h1, h2]
              · intro c hc
                simp only [tapSetup, runCommand, h1, h2] at hc
                simp only [List.dropLast_cons₂, List.dropLast_single,
                  List.mem_singleton] at hc
                exact hc ▸ h1
              · intro c hc
                simp only [tapSetup, runCommand, h1, h2, List.getLast?_cons_cons,
                  List.getLast?_singleton, Option.some.injEq] at hc
                exact ⟨ev, out, hc ▸ h2⟩
              · exact ⟨tap, by simp, containsStr_append_right _ _ _ hcont2⟩
          | ok =>
              cases h3 : o ["ip", "link", "set", tap, "up"] with
              | err ev out =>
                  right
                  refine ⟨"failed to bring up TAP device " ++ tap ++ ": "
                      ++ cmdFailMsg ["ip", "link", "set", tap, "up"] ev out,
                    ?_, ⟨3, ?_⟩, ?_, ?_, ?_, ?_⟩
                  · simp [tapSetup, runCommand, cmdFailMsg, h1, h2, h3]
                  · simp [tapSetup, runCommand, h1, h2, h3, tapCmdsOf]
                  · simp [tapSetup, runCommand, h1, h2, h3]
                  · intro c hc
                    simp only [tapSetup, runCommand, h1, h2, h3] at hc
                    simp only [List.dropLast_cons₂, List.dropLast_single,
                      List.mem_cons, List.mem_singleton, List.not_mem_nil, or_false] at hc
                    rcases hc with rfl | rfl
                    · exact h1
                    · exact h2
                  · intro c hc
                    simp only [tapSetup, runCommand, h1, h2, h3, List.getLast?_cons_cons,
                      List.getLast?_singleton, Option.some.injEq] at hc
                    exact ⟨ev, out, hc ▸ h3⟩
                  · exact ⟨tap, by simp, containsStr_append_right _ _ _ hcont3⟩
              | ok =>
                  have htrace : (tapSetup o b ((m, tap) :: rest)).2
                      = ["ip", "tuntap", "add", "mode", "tap", tap]
                        :: ["ip", "link", "set", tap, "master", b]
                        :: ["ip", "link", "set", tap, "up"]
                        :: (tapSetup o b rest).2 := by
                    simp [tapSetup, runCommand, h1, h2, h3]
                  have hres : (tapSetup o b ((m, tap) :: rest)).1
                      = (tapSetup o b rest).1 := by
                    simp [tapSetup, runCommand, h1, h2, h3]
                  rcases ih with ⟨hok, htr, hall⟩ | ⟨e, herr, ⟨n, htr⟩, hne, hdrop, hlast, htap⟩
                  · left
                    refine ⟨hres ▸ hok, ?_, ?_⟩
                    · rw [htrace, htr]; rfl
                    · intro c hc
                      rw [htrace] at hc
                      rcases List.mem_cons.mp hc with rfl | hc
                      · exact h1
                      rcases List.mem_cons.mp hc with rfl | hc
                      · exact h2
                      rcases List.mem_cons.mp hc with rfl | hc
                      · exact h3
                      · exact hall c hc
                  · right
                    rcases htr2 : (tapSetup o b rest).2 with _ | ⟨t0, tr'⟩
                    · exact absurd htr2 hne
                    refine ⟨e, hres ▸ herr, ⟨3 + n, ?_⟩, ?_, ?_, ?_, ?_⟩
                    · rw [htrace, htr]
                      show _ = (tapCmdsOf b ((m, tap) :: rest)).take (3 + n)
                      simp [tapCmdsOf, List.take_succ_cons, Nat.add_comm]
                    · rw [htrace]; simp
                    · intro c hc
                      rw [htrace, htr2] at hc
                      simp only [List.dropLast_cons₂, List.mem_cons] at hc
                      rcases hc with rfl | rfl | hc
                      · exact h1
                      · exact h2
                      rcases hc with rfl | hc
                      · exact h3
                      · exact hdrop c (by rw [htr2]; exact hc)
                    · intro c hc
                      rw [htrace, htr2] at hc
                      simp only [List.getLast?_cons_cons] at hc
                      exact hlast c (by rw [htr2]; exact hc)
                    · rcases htap with ⟨tp, hmem, hcont⟩
                      exact ⟨tp, List.mem_cons_of_mem _ hmem, hcont⟩

theorem setupRest_cases (o : CmdOracle) (s : Session) :
    ((setupRest o s).1 = .ok ()
       ∧ (setupRest o s).2 = setupPlanCmds s
       ∧ ∀ c ∈ (setupRest o s).2, o c = CmdResult.ok)
  ∨ (∃ e, (setupRest o s).1 = .error e
       ∧ (∃ n, (setupRest o s).2 = (setupPlanCmds s).take n)
       ∧ (setupRest o s).2 ≠ []
       ∧ (∀ c ∈ (setupRest o s).2.dropLast, o c = CmdResult.ok)
       ∧ (∀ c, (setupRest o s).2.getLast? = some c → ∃ ev out, o c = CmdResult.err ev out)
       ∧ (containsStr e s.bridgeName = true
           ∨ ∃ tap ∈ s.tapNames.map Prod.snd, containsStr e tap = true)) := by
  have hcb1 : containsStr ("failed to create bridge " ++ s.bridgeName ++ ": ")
      s.bridgeName = true :=
    containsStr_sandwich _ _ _
  have hcb2 : containsStr ("failed to bring up bridge " ++ s.bridgeName ++ ": ")
      s.bridgeName = true :=
    containsStr_sandwich _ _ _
  cases hb1 : o ["ip", "link", "add", s.bridgeName, "type", "bridge"] with
  | err ev out =>
      right
      refine ⟨"failed to create bridge " ++ s.bridgeName ++ ": "
          ++ cmdFailMsg ["ip", "link", "add", s.bridgeName, "type", "bridge"] ev out,
        ?_, ⟨1, ?_⟩, ?_, ?_, ?_, ?_⟩
      · simp [setupRest, runCommand, cmdFailMsg, hb1]
      · simp [setupRest, runCommand, hb1, setupPlanCmds]
      · simp [setupRest, runCommand, hb1]
      · intro c hc; simp [setupRest, runCommand, hb1] at hc
      · intro c hc
        simp only [setupRest, runCommand, hb1, List.getLast?_singleton,
          Option.some.injEq] at hc
        exact ⟨ev, out, hc ▸ hb1⟩
      · exact Or.inl (containsStr_append_right _ _ _ hcb1)
  | ok =>
      cases hb2 : o ["ip", "link", "set", s.bridgeName, "up"] with
      | err ev out =>
          right
          refine ⟨"failed to bring up bridge " ++ s.bridgeName ++ ": "
              ++ cmdFailMsg ["ip", "link", "set", s.bridgeName, "up"] ev out,
            ?_, ⟨2, ?_⟩, ?_, ?_, ?_, ?_⟩
          · simp [setupRest, runCommand, cmdFailMsg, hb1, hb2]
          · simp [setupRest, runCommand, hb1, hb2, setupPlanCmds]
          · simp [setupRest, runCommand, hb1, hb2]
          · intro c hc
            simp only [setupRest, runCommand, hb1, hb2, List.dropLast_cons₂,
              List.dropLast_single, List.mem_singleton] at hc
            exact hc ▸ hb1
          · intro c hc
            simp only [setupRest, runCommand, hb1, hb2, List.getLast?_cons_cons,
              List.getLast?_singleton, Option.some.injEq] at hc
            exact ⟨ev, out, hc ▸ hb2⟩
          · exact Or.inl (containsStr_append_right _ _ _ hcb2)
      | ok =>
          have htrace : (setupRest o s).2
              = ["ip", "link", "add", s.bridgeName, "type", "bridge"]
                :: ["ip", "link", "set", s.bridgeName, "up"]
                :: (tapSetup o s.bridgeName s.tapNames).2 := by
            simp [setupRest, runCommand, hb1, hb2]
          have hres : (setupRest o s).1 = (tapSetup o s.bridgeName s.tapNames).1 := by
            simp [setupRest, runCommand, hb1, hb2]
          rcases tapSetup_cases o s.bridgeName s.tapNames with
            ⟨hok, htr, hall⟩ | ⟨e, herr, ⟨n, htr⟩, hne, hdrop, hlast, htap⟩
          · left
            refine ⟨hres ▸ hok, ?_, ?_⟩
            · rw [htrace, htr]; rfl
            · intro c hc
              rw [htrace] at hc
              rcases List.mem_cons.mp hc with rfl | hc
              · exact hb1
              rcases List.mem_cons.mp hc with rfl | hc
              · exact hb2
              · exact hall c hc
          · right
            rcases htr2 : (tapSetup o s.bridgeName s.tapNames).2 with _ | ⟨t0, tr'⟩
            · exact absurd htr2 hne
            refine ⟨e, hres ▸ herr, ⟨2 + n, ?_⟩, ?_, ?_, ?_, Or.inr htap⟩
            · rw [htrace, htr]
              show _ = (setupPlanCmds s).take (2 + n)
              simp [setupPlanCmds, List.take_succ_cons, Nat.add_comm]
            · rw [htrace]; simp
            · intro c hc
              rw [htrace, htr2] at hc
              simp only [List.dropLast_cons₂, List.mem_cons] at hc
              rcases hc with rfl | rfl | hc
              · exact hb1
              · exact hb2
              · exact hdrop c (by rw [htr2]; exact hc)
            · intro c hc
              rw [htrace, htr2] at hc
              simp only [List.getLast?_cons_cons] at hc
              exact hlast c (by rw [htr2]; exact hc)

/-- C6 (confirmed): `setupNetwork` follows the exact claimed step sequence:
it first queries whether the bridge name exists (a hard failure of the query
aborts); if the bridge exists it is deleted first, and a deletion failure
aborts with an error naming the bridge; the executed commands are then
exactly a prefix of the fixed plan (create bridge, bridge up, then per tap
create/attach/up), the whole plan on success; any single failing step aborts
the setup — every earlier command succeeded, the last executed command is
the failing one — and the error message names the interface of the failing
step. -/
theorem setupNetwork_step_sequence (o : CmdOracle) (s : Session) :
    ((setupNetwork o s).2.head? = some (NetAction.query s.bridgeName))
  ∧ (∀ ev out, o ["ip", "link", "show", s.bridgeName] = CmdResult.err ev out →
        absentShapes out = false →
        (setupNetwork o s).1
            = .error ("error checking existence of bridge " ++ s.bridgeName ++ ": "
                ++ ("error executing 'ip link show " ++ s.bridgeName ++ "': " ++ ev
                  ++ ", output: " ++ out))
          ∧ (setupNetwork o s).2 = [NetAction.query s.bridgeName])
  ∧ (o ["ip", "link", "show", s.bridgeName] = CmdResult.ok →
        ((setupNetwork o s).2.drop 1).head?
            = some (NetAction.run ["ip", "link", "delete", s.bridgeName, "type", "bridge"])
        ∧ (∀ ev out,
             o ["ip", "link", "delete", s.bridgeName, "type", "bridge"] = CmdResult.err ev out →
             (setupNetwork o s).1
                 = .error ("failed to delete bridge " ++ s.bridgeName ++ ": "
                     ++ cmdFailMsg ["ip", "link", "delete", s.bridgeName, "type", "bridge"] ev out)
               ∧ containsStr ("failed to delete bridge " ++ s.bridgeName ++ ": "
                     ++ cmdFailMsg ["ip", "link", "delete", s.bridgeName, "type", "bridge"] ev out)
                   s.bridgeName = true
               ∧ (setupNetwork o s).2
                   = [NetAction.query s.bridgeName,
                      NetAction.run ["ip", "link", "delete", s.bridgeName, "type", "bridge"]]))
  ∧ (∃ pre n, runCmdsOf (setupNetwork o s).2 = pre ++ (setupPlanCmds s).take n
        ∧ (pre = [] ∨ pre = [["ip", "link", "delete", s.bridgeName, "type", "bridge"]]))
  ∧ ((setupNetwork o s).1 = .ok () →
        (∃ pre, runCmdsOf (setupNetwork o s).2 = pre ++ setupPlanCmds s
            ∧ (pre = [] ∨ pre = [["ip", "link", "delete", s.bridgeName, "type", "bridge"]]))
        ∧ ∀ c ∈ runCmdsOf (setupNetwork o s).2, o c = CmdResult.ok)
  ∧ (∀ e, (setupNetwork o s).1 = .error e →
        (∀ c ∈ (runCmdsOf (setupNetwork o s).2).dropLast, o c = CmdResult.ok)
        ∧ (∀ c, (runCmdsOf (setupNetwork o s).2).getLast? = some c →
             ∃ ev out, o c = CmdResult.err ev out)
        ∧ (containsStr e s.bridgeName = true
            ∨ ∃ tap ∈ s.tapNames.map Prod.snd, containsStr e tap = true)) := by
  cases hshow : o ["ip", "link", "show", s.bridgeName] with
  | err ev0 out0 =>
      cases habs : absentShapes out0 with
      | false =>
          have hie : interfaceExists o s.bridgeName
              = .error ("error executing 'ip link show " ++ s.bridgeName ++ "': " ++ ev0
                  ++ ", output: " ++ out0) := by
            simp [interfaceExists, hshow, habs]
          have hsn : setupNetwork o s
              = (.error ("error checking existence of bridge " ++ s.bridgeName ++ ": "
                    ++ ("error executing 'ip link show " ++ s.bridgeName ++ "': " ++ ev0
                      ++ ", output: " ++ out0)),
                 [NetAction.query s.bridgeName]) := by
            simp [setupNetwork, hie]
          rw [hsn]
          refine ⟨rfl, ?_, ?_, ⟨[], 0, rfl, Or.inl rfl⟩, ?_, ?_⟩
          · intro ev out h _
            cases h
            exact ⟨rfl, rfl⟩
          · intro h
            cases h
          · intro h
            cases h
          · intro e he
            cases he
            refine ⟨by intro c hc; simp [runCmdsOf] at hc,
                    by intro c hc; simp [runCmdsOf] at hc, Or.inl ?_⟩
            exact containsStr_append_right _ _ _
              (containsStr_append_right _ _ _ (containsStr_right _ _))
      | true =>
          have hie : interfaceExists o s.bridgeName = .ok false := by
            simp [interfaceExists, hshow, habs]
          have hsn : setupNetwork o s
              = ((setupRest o s).1,
                 NetAction.query s.bridgeName :: (setupRest o s).2.map NetAction.run) := by
            simp [setupNetwork, hie]
          rw [hsn]
          have hrun : runCmdsOf (NetAction.query s.bridgeName
              :: (setupRest o s).2.map NetAction.run) = (setupRest o s).2 :=
            runCmdsOf_query_runs _ _
          rcases setupRest_cases o s with
            ⟨hok, htr, hall⟩ | ⟨e0, herr, ⟨n, htr⟩, hne, hdrop, hlast, hcont⟩
          · refine ⟨rfl, ?_, ?_, ?_, ?_, ?_⟩
            · intro ev out h habs2
              cases h
              rw [habs2] at habs
              cases habs
            · intro h
              cases h
            · exact ⟨[], (setupPlanCmds s).length, by rw [hrun, htr, List.take_length, List.nil_append], Or.inl rfl⟩
            · intro _
              refine ⟨⟨[], by rw [hrun, htr, List.nil_append], Or.inl rfl⟩, ?_⟩
              intro c hc
              rw [hrun] at hc
              exact hall c hc
            · intro e he
              rw [hok] at he
              cases he
          · refine ⟨rfl, ?_, ?_, ?_, ?_, ?_⟩
            · intro ev out h habs2
              cases h
              rw [habs2] at habs
              cases habs
            · intro h
              cases h
            · exact ⟨[], n, by rw [hrun, htr, List.nil_append], Or.inl rfl⟩
            · intro h
              rw [herr] at h
              cases h
            · intro e he
              rw [herr] at he
              cases he
              refine ⟨?_, ?_, hcont⟩
              · intro c hc
                rw [hrun] at hc
                exact hdrop c hc
              · intro c hc
                rw [hrun] at hc
                exact hlast c hc
  | ok =>
      have hie : interfaceExists o s.bridgeName = .ok true := by
        simp [interfaceExists, hshow]
      cases hdel : o ["ip", "link", "delete", s.bridgeName, "type", "bridge"] with
      | err ev0 out0 =>
          have hsn : setupNetwork o s
              = (.error ("failed to delete bridge " ++ s.bridgeName ++ ": "
                    ++ cmdFailMsg ["ip", "link", "delete", s.bridgeName, "type", "bridge"]
                        ev0 out0),
                 [NetAction.query s.bridgeName,
                  NetAction.run ["ip", "link", "delete", s.bridgeName, "type", "bridge"]]) := by
            simp [setupNetwork, hie, runCommand, cmdFailMsg, hdel]
          rw [hsn]
          have hcdel : containsStr ("failed to delete bridge " ++ s.bridgeName ++ ": "
              ++ cmdFailMsg ["ip", "link", "delete", s.bridgeName, "type", "bridge"] ev0 out0)
              s.bridgeName = true :=
            containsStr_append_right _ _ _
              (containsStr_append_right _ _ _ (containsStr_right _ _))
          refine ⟨rfl, ?_, ?_,
            ⟨[["ip", "link", "delete", s.bridgeName, "type", "bridge"]], 0, by
              simp [runCmdsOf], Or.inr rfl⟩, ?_, ?_⟩
          · intro ev out h _
            cases h
          · intro _
            refine ⟨rfl, ?_⟩
            intro ev out h
            cases h
            exact ⟨rfl, hcdel, rfl⟩
          · intro h
            cases h
          · intro e he
            cases he
            refine ⟨?_, ?_, Or.inl hcdel⟩
            · intro c hc
              simp [runCmdsOf] at hc
            · intro c hc
              simp only [runCmdsOf, List.filterMap_cons, List.filterMap_nil,
                List.getLast?_singleton, Option.some.injEq] at hc
              exact ⟨ev0, out0, hc ▸ hdel⟩
      | ok =>
          have hsn : setupNetwork o s
              = ((setupRest o s).1,
                 NetAction.query s.bridgeName
                   :: NetAction.run ["ip", "link", "delete", s.bridgeName, "type", "bridge"]
                   :: (setupRest o s).2.map NetAction.run) := by
            simp [setupNetwork, hie, runCommand, hdel]
          rw [hsn]
          have hrun : runCmdsOf (NetAction.query s.bridgeName
              :: NetAction.run ["ip", "link", "delete", s.bridgeName, "type", "bridge"]
              :: (setupRest o s).2.map NetAction.run)
              = ["ip", "link", "delete", s.bridgeName, "type", "bridge"]
                :: (setupRest o s).2 :=
            runCmdsOf_query_del_runs _ _ _
          rcases setupRest_cases o s with
            ⟨hok, htr, hall⟩ | ⟨e0, herr, ⟨n, htr⟩, hne, hdrop, hlast, hcont⟩
          · refine ⟨rfl, ?_, ?_, ?_, ?_, ?_⟩
            · intro ev out h _
              cases h
            · intro _
              refine ⟨rfl, ?_⟩
              intro ev out h
              cases h
            · exact ⟨[["ip", "link", "delete", s.bridgeName, "type", "bridge"]],
                (setupPlanCmds s).length,
                by rw [hrun, htr, List.take_length, List.singleton_append], Or.inr rfl⟩
            · intro _
              refine ⟨⟨[["ip", "link", "delete", s.bridgeName, "type", "bridge"]],
                  by rw [hrun, htr, List.singleton_append], Or.inr rfl⟩, ?_⟩
              intro c hc
              rw [hrun] at hc
              rcases List.mem_cons.mp hc with rfl | hc
              · exact hdel
              · rw [htr] at hc
                exact hall c (htr ▸ hc)
            · intro e he
              rw [hok] at he
              cases he
          · refine ⟨rfl, ?_, ?_, ?_, ?_, ?_⟩
            · intro ev out h _
              cases h
            · intro _
              refine ⟨rfl, ?_⟩
              intro ev out h
              cases h
            · exact ⟨[["ip", "link", "delete", s.bridgeName, "type", "bridge"]], n,
                by rw [hrun, htr, List.singleton_append], Or.inr rfl⟩
            · intro h
              rw [herr] at h
              cases h
            · intro e he
              rw [herr] at he
              cases he
              rcases htr2 : (setupRest o s).2 with _ | ⟨t0, tr'⟩
              · exact absurd htr2 hne
              refine ⟨?_, ?_, hcont⟩
              · intro c hc
                dsimp only at hc
                rw [runCmdsOf_query_del_runs] at hc
                simp only [List.dropLast_cons₂, List.mem_cons] at hc
                rcases hc with rfl | hc
                · exact hdel
                · exact hdrop c (by rw [htr2]; exact hc)
              · intro c hc
                dsimp only at hc
                rw [runCmdsOf_query_del_runs] at hc
                simp only [List.getLast?_cons_cons] at hc
                exact hlast c (by rw [htr2]; exact hc)

theorem setupNetwork_step_sequence_witness :
    (setupNetwork deleteFails sessionZ).2.head? = some (NetAction.query sessionZ.bridgeName)
  ∧ (setupNetwork deleteFails sessionZ).1
      = Except.error ("failed to delete bridge " ++ sessionZ.bridgeName ++ ": "
          ++ cmdFailMsg ["ip", "link", "delete", sessionZ.bridgeName, "type", "bridge"]
              "exit status 2" "boom")
  ∧ containsStr ("failed to delete bridge " ++ sessionZ.bridgeName ++ ": "
        ++ cmdFailMsg ["ip", "link", "delete", sessionZ.bridgeName, "type", "bridge"]
            "exit status 2" "boom") sessionZ.bridgeName = true
  ∧ (setupNetwork deleteFails sessionZ).2
      = [NetAction.query sessionZ.bridgeName,
         NetAction.run ["ip", "link", "delete", sessionZ.bridgeName, "type", "bridge"]] := by
  have h := setupNetwork_step_sequence deleteFails sessionZ
  have hc := (h.2.2.1 rfl).2 "exit status 2" "boom" rfl
  exact ⟨h.1, hc.1, hc.2.1, hc.2.2⟩

end VMWS
